import Mathlib

/-!
Verification of pybind11's Eigen tensor conversion core
(`include/pybind11/detail/eigen_tensor.h`).

The development shallowly embeds the two type casters of that header:
the owning-tensor caster (`type_caster<Type>`) and the zero-copy map
caster (`type_caster<Eigen::TensorMap<Type>>`), together with the
`eigen_tensor_helper` shape descriptor they share.

The host runtime's array object (pybind11 `array_t`, defined in
`numpy.h`, outside the unit under study) is modelled from the spec's
Foreign Array Adapter contract: rank, shape, element-type tag, layout
flag, writeable flag, and a raw buffer.  Buffers live in an explicit
store addressed by numeric ids, so that aliasing and buffer
independence are statable propositions.
-/

namespace EigenTensor

/-- Memory layout of a tensor kind: row-major (C-style / `c_contiguous`)
or column-major (F-style / `f_contiguous`), from `compute_array_flag_from_tensor`. -/
inductive Layout
  | rowMajor
  | colMajor
deriving DecidableEq, Repr

/-- Shape kind of a native tensor type: `Eigen::Tensor` (dynamic shape of a
fixed rank) or `Eigen::TensorFixedSize` (every dimension a compile-time
constant). -/
inductive ShapeKind
  | dynamic (rank : Nat)
  | fixed (dims : List Int)
deriving DecidableEq, Repr

/-- A tensor kind: the compile-time facts of the native Eigen tensor type —
element-type tag (`Scalar`), layout, and shape kind. -/
structure TensorKind where
  scalar : Nat
  layout : Layout
  shapeKind : ShapeKind
deriving DecidableEq, Repr

/-- `Type::NumIndices`: the rank of the tensor kind.  For a fixed-size tensor
it is the number of compile-time dimensions. -/
def TensorKind.rank (K : TensorKind) : Nat :=
  match K.shapeKind with
  | .dynamic r => r
  | .fixed dims => dims.length

/-- `eigen_tensor_helper<T>::is_correct_shape`: the dynamic-shape
specialisation accepts every shape; the fixed-size specialisation compares
the candidate against the compile-time dims with `std::array` equality. -/
def is_correct_shape (K : TensorKind) (shape : List Int) : Bool :=
  match K.shapeKind with
  | .dynamic _ => true
  | .fixed dims => dims == shape

/-- `eigen_tensor_helper<T>::get_shape` applied to a tensor instance: the
dynamic-shape specialisation reads the instance's runtime dimensions, the
fixed-size specialisation returns the compile-time dims. -/
def get_shape (K : TensorKind) (runtimeShape : List Int) : List Int :=
  match K.shapeKind with
  | .dynamic _ => runtimeShape
  | .fixed dims => dims

/-- Modelled from the spec: the host runtime's buffer memory.  `bufs` gives
each buffer id its flat element contents; every id below `next` is
allocated, ids at or above `next` are free. -/
structure Store where
  bufs : Nat → List Int
  next : Nat

/-- Allocate a fresh buffer holding `data`; returns that buffer's id and the
updated store. -/
def Store.alloc (st : Store) (data : List Int) : Nat × Store :=
  (st.next,
   { bufs := fun i => if i = st.next then data else st.bufs i,
     next := st.next + 1 })

/-- Overwrite the contents of buffer `id` (models a mutation performed
through any handle aliasing that buffer). -/
def Store.write (st : Store) (id : Nat) (v : List Int) : Store :=
  { bufs := fun i => if i = id then v else st.bufs i, next := st.next }

/-- Modelled from the spec: the Foreign Array Adapter — the view this core
has of a host-runtime array object (`array_t` in the source, which lives
outside the unit under study).  It exposes rank, per-axis shape, an
element-type tag, the layout flag, the writeable flag, and the raw data
pointer, modelled as a buffer id into the store. -/
structure ForeignArray where
  ndim : Nat
  shape : List Int
  dtype : Nat
  layout : Layout
  writeable : Bool
  buf : Nat
deriving DecidableEq, Repr

/-- An owned tensor value produced by the owning loader: its validated shape
and the id of its private storage buffer. -/
structure Tensor where
  shape : List Int
  buf : Nat
deriving DecidableEq, Repr

/-- A non-owning `Eigen::TensorMap` view: a shape and the foreign buffer it
aliases. -/
structure MapView where
  shape : List Int
  buf : Nat
deriving DecidableEq, Repr

/-- `type_caster<Type>::load`: requires `a.ndim() == Type::NumIndices`,
collects the first `NumIndices` entries of the array's shape, requires
`is_correct_shape`; on success assigns a `TensorMap` over the foreign
buffer to the owned `value`, which copies the elements into a freshly
allocated private buffer.  Failure is the recoverable `false` (here
`none`); the function has no fatal path.  The second `bool` parameter is
the `convert` flag, accepted and ignored exactly as in the source. -/
def tensorLoad (K : TensorKind) (st : Store) (a : ForeignArray)
    (_convert : Bool) : Option (Tensor × Store) :=
  if a.ndim ≠ K.rank then none
  else
    let shape := a.shape.take K.rank
    if ¬ is_correct_shape K shape then none
    else
      let (id, st') := st.alloc (st.bufs a.buf)
      some (⟨shape, id⟩, st')

/-- `type_caster<Eigen::TensorMap<Type>>::load`: the strict zero-copy path.
Requires the array's layout flag to match the tensor kind's layout
(`a.flags() & compute_array_flag_from_tensor<Type>()` in the source),
the dtype to be exactly the scalar's dtype, the rank to match, and
`is_correct_shape`; on success builds a non-owning view over the array's
mutable data pointer.  No store is threaded because this path can neither
allocate nor copy. -/
def mapLoad (K : TensorKind) (a : ForeignArray) : Option MapView :=
  if a.layout ≠ K.layout then none
  else if a.dtype ≠ K.scalar then none
  else if a.ndim ≠ K.rank then none
  else
    let shape := a.shape.take K.rank
    if ¬ is_correct_shape K shape then none
    else some ⟨shape, a.buf⟩

/-- `return_value_policy`, the ownership policy of an outgoing cast. -/
inductive Policy
  | automatic
  | automatic_reference
  | take_ownership
  | copy
  | move
  | reference
  | reference_internal
deriving DecidableEq, Repr

/-- The `parent_object` attached to the produced array: nothing (the array
constructor then takes an independent copy of the data), a lifetime
capsule owning the buffer, the `none` singleton (pure borrow), or the
designated parent object (`reference_internal`). -/
inductive ParentKind
  | empty
  | capsule
  | noneObj
  | parentObj
deriving DecidableEq, Repr

/-- Which branch of `cast_impl` ran: the tensor was move-constructed into a
fresh aligned heap allocation, an existing heap pointer was adopted
as-is, the buffer was copied into a new independent array, or the source
buffer was aliased by reference. -/
inductive CastAction
  | moved
  | adopted
  | copied
  | referenced
deriving DecidableEq, Repr

/-- Result of a successful cast: the produced foreign array, its parent
binding, the store after the cast, and the branch that produced it. -/
structure CastOut where
  arr : ForeignArray
  parent : ParentKind
  store : Store
  action : CastAction

/-- The `array_t` the casters construct: it carries the tensor kind's scalar
dtype and layout flag, the given shape, and the writeable flag computed by
the policy branch (the source creates the array writeable and clears
`NPY_ARRAY_WRITEABLE_` when `writeable` is false). -/
def mkArr (K : TensorKind) (shape : List Int) (writeable : Bool)
    (buf : Nat) : ForeignArray :=
  { ndim := shape.length, shape := shape, dtype := K.scalar,
    layout := K.layout, writeable := writeable, buf := buf }

/-- `pybind11_fail` aborts the conversion; in the embedding a fatal failure
is the `Except.error` constructor. -/
def isFatal {α : Type} (r : Except String α) : Bool :=
  match r with
  | .error _ => true
  | .ok _ => false

/-- `type_caster<Type>::cast_impl` on a source of const-ness `srcConst`:
 - `move`: fatal on a const source; otherwise the tensor is
   move-constructed into a fresh aligned heap allocation (the data buffer
   is stolen, not copied) and a capsule destroys that allocation once;
 - `take_ownership`: fatal on a const source; otherwise the existing heap
   pointer is adopted and a capsule deletes it once;
 - `copy`: empty parent, so the array constructor allocates a new buffer
   and copies the elements; always writeable;
 - `reference` / `reference_internal`: alias the source buffer with the
   `none` singleton / the parent object as base; writeable mirrors the
   source's const-ness;
 - any other policy value reaches the defensive `default:` and is fatal. -/
def castImpl (K : TensorKind) (st : Store) (srcConst : Bool) (t : Tensor)
    (p : Policy) : Except String CastOut :=
  match p with
  | .move =>
      if srcConst then .error "Cannot move from a constant reference"
      else
        .ok ⟨mkArr K (get_shape K t.shape) true t.buf, .capsule, st, .moved⟩
  | .take_ownership =>
      if srcConst then .error "Cannot take ownership of a const reference"
      else
        .ok ⟨mkArr K (get_shape K t.shape) true t.buf, .capsule, st, .adopted⟩
  | .copy =>
      let (id, st') := st.alloc (st.bufs t.buf)
      .ok ⟨mkArr K (get_shape K t.shape) true id, .empty, st', .copied⟩
  | .reference =>
      .ok ⟨mkArr K (get_shape K t.shape) (!srcConst) t.buf, .noneObj, st,
           .referenced⟩
  | .reference_internal =>
      .ok ⟨mkArr K (get_shape K t.shape) (!srcConst) t.buf, .parentObj, st,
           .referenced⟩
  | _ => .error "pybind11 bug in eigen.h, please file a bug report"

/-- The two rvalue overloads `cast(Type &&, ...)` and
`cast(const Type &&, ...)`: a reference policy on a temporary is rejected
immediately; every other requested policy is replaced by `move`. -/
def castRvalue (K : TensorKind) (st : Store) (srcConst : Bool) (t : Tensor)
    (p : Policy) : Except String CastOut :=
  if p = .reference ∨ p = .reference_internal then
    .error "Cannot use a reference return value policy for an rvalue"
  else castImpl K st srcConst t .move

/-- The pointer overloads `cast(Type *, ...)` and `cast(const Type *, ...)`:
`automatic` becomes `take_ownership`, `automatic_reference` becomes
`reference`. -/
def castPtr (K : TensorKind) (st : Store) (srcConst : Bool) (t : Tensor)
    (p : Policy) : Except String CastOut :=
  castImpl K st srcConst t
    (if p = .automatic then .take_ownership
     else if p = .automatic_reference then .reference
     else p)

/-- The lvalue overloads `cast(Type &, ...)` and `cast(const Type &, ...)`:
`automatic` and `automatic_reference` become `copy`; the const overload
then goes through the pointer overload, whose normalisation is a no-op on
the already-normalised policy. -/
def castLvalue (K : TensorKind) (st : Store) (srcConst : Bool) (t : Tensor)
    (p : Policy) : Except String CastOut :=
  let p' := if p = .automatic ∨ p = .automatic_reference then .copy else p
  if srcConst then castPtr K st true t p' else castImpl K st false t p'

/-- `type_caster<Eigen::TensorMap<Type>>::cast_impl`: only `reference` and
`reference_internal` are accepted, aliasing the view's buffer with
writeable mirroring the source's const-ness; every other policy reaches
the `default:` and is fatal.  No store is threaded because this path
never allocates. -/
def mapCastImpl (K : TensorKind) (srcConst : Bool) (v : MapView)
    (p : Policy) : Except String (ForeignArray × ParentKind) :=
  match p with
  | .reference =>
      .ok (mkArr K (get_shape K v.shape) (!srcConst) v.buf, .noneObj)
  | .reference_internal =>
      .ok (mkArr K (get_shape K v.shape) (!srcConst) v.buf, .parentObj)
  | _ =>
      .error "Invalid return_value_policy for Eigen Map type, must be either reference or reference_internal"

/-! ### Concrete instances used by the witnesses -/

/-- A fixed-shape kind with compile-time dims (2,3), row-major (spec
scenario 1). -/
def K0 : TensorKind := ⟨0, .rowMajor, .fixed [2, 3]⟩

/-- A store with a single allocated buffer (id 0) of six elements. -/
def st0 : Store := ⟨fun i => if i = 0 then [1, 2, 3, 4, 5, 6] else [], 1⟩

/-- A foreign array of shape [2,3] over buffer 0, dtype and layout matching
`K0`. -/
def a0 : ForeignArray := ⟨2, [2, 3], 0, .rowMajor, true, 0⟩

/-- An owned tensor of shape [2,3] stored in buffer 0. -/
def t0 : Tensor := ⟨[2, 3], 0⟩

/-- A non-owning view of shape [2,3] over buffer 0. -/
def v0 : MapView := ⟨[2, 3], 0⟩

/-! ### Helper lemmas -/

/-- A shape accepted by `is_correct_shape` is exactly what `get_shape`
returns for it: dynamic kinds echo the runtime shape, fixed kinds return
dims equal to it. -/
theorem get_shape_of_correct (K : TensorKind) (s : List Int)
    (h : is_correct_shape K s = true) : get_shape K s = s := by
  unfold is_correct_shape at h
  unfold get_shape
  cases hk : K.shapeKind with
  | dynamic r => rfl
  | fixed dims => rw [hk] at h; exact eq_of_beq h

/-- Everything the owning load's success pins down: the checks passed, the
loaded tensor's shape and fresh buffer id, and the updated store. -/
theorem tensorLoad_some_parts (K : TensorKind) (st : Store) (a : ForeignArray)
    (c : Bool) (t : Tensor) (st' : Store) (hlen : a.shape.length = a.ndim)
    (h : tensorLoad K st a c = some (t, st')) :
    a.ndim = K.rank ∧ is_correct_shape K a.shape = true
    ∧ t.shape = a.shape ∧ t.buf = st.next
    ∧ st'.next = st.next + 1
    ∧ ∀ i, st'.bufs i = if i = st.next then st.bufs a.buf else st.bufs i := by
  by_cases h1 : a.ndim = K.rank
  · have htake : a.shape.take K.rank = a.shape :=
      List.take_of_length_le (by rw [hlen, h1])
    by_cases h2 : is_correct_shape K a.shape = true
    · simp [tensorLoad, h1, htake, h2, Store.alloc] at h
      obtain ⟨ht, hst⟩ := h
      subst ht; subst hst
      exact ⟨h1, h2, rfl, rfl, rfl, fun i => rfl⟩
    · simp [tensorLoad, h1, htake, h2] at h
  · simp [tensorLoad, h1] at h

/-- The owning load succeeds whenever the rank and shape checks pass. -/
theorem tensorLoad_isSome_of (K : TensorKind) (st : Store) (a : ForeignArray)
    (c : Bool) (hlen : a.shape.length = a.ndim) (h1 : a.ndim = K.rank)
    (h2 : is_correct_shape K a.shape = true) :
    (tensorLoad K st a c).isSome = true := by
  have htake : a.shape.take K.rank = a.shape :=
    List.take_of_length_le (by rw [hlen, h1])
  simp [tensorLoad, h1, htake, h2, Store.alloc]

/-- Everything the map load's success pins down: the view's shape and that
it aliases the array's buffer. -/
theorem mapLoad_some_parts (K : TensorKind) (a : ForeignArray) (v : MapView)
    (h : mapLoad K a = some v) :
    v.shape = a.shape.take K.rank ∧ v.buf = a.buf := by
  by_cases h1 : a.layout = K.layout
  · by_cases h2 : a.dtype = K.scalar
    · by_cases h3 : a.ndim = K.rank
      · by_cases h4 : is_correct_shape K (a.shape.take K.rank) = true
        · simp [mapLoad, h1, h2, h3, h4] at h
          subst h
          exact ⟨rfl, rfl⟩
        · simp [mapLoad, h1, h2, h3, h4] at h
      · simp [mapLoad, h1, h2, h3] at h
    · simp [mapLoad, h1, h2] at h
  · simp [mapLoad, h1] at h

/-! ### Claims -/

/-- C7: for every fixed-shape tensor kind with compile-time dims and every
candidate shape S, `is_correct_shape S` returns true iff S equals dims
exactly in every dimension; no prefix or partial match is accepted.  (The
theorem quantifies over all candidate shapes, in particular those of
matching rank.) -/
theorem is_correct_shape_fixed_iff (sc : Nat) (L : Layout)
    (dims S : List Int) :
    is_correct_shape ⟨sc, L, .fixed dims⟩ S = true ↔ S = dims := by
  constructor
  · intro h
    simp [is_correct_shape] at h
    exact h.symm
  · intro h
    subst h
    simp [is_correct_shape]

/-- C8: the owning-tensor load returns the same result — same accept/reject
decision and same loaded value — whether its leniency (`convert`) flag is
true or false; the flag never alters the owning load path. -/
theorem tensorLoad_convert_independent (K : TensorKind) (st : Store)
    (a : ForeignArray) (c₁ c₂ : Bool) :
    tensorLoad K st a c₁ = tensorLoad K st a c₂ := rfl

/-- C3: the owning-tensor caster fails fatally in exactly these cases:
a reference policy requested for an rvalue source (first disjunct of the
second conjunct); `move`/`take_ownership` requested for a const source
(an rvalue overload replaces every non-reference requested policy by
`move`, so a const rvalue fails under every policy via the move-from-const
check); an unrecognized policy value reaching `cast_impl`'s `default:`
(`automatic`/`automatic_reference`, which the public overloads always
normalise away).  In every other case the result is `.ok`, carrying a
foreign array handle. -/
theorem tensorCast_fatal_iff (K : TensorKind) (st : Store) (t : Tensor)
    (c : Bool) (p : Policy) :
    (isFatal (castImpl K st c t p) = true ↔
      ((p = .move ∨ p = .take_ownership) ∧ c = true)
      ∨ p = .automatic ∨ p = .automatic_reference)
    ∧ (isFatal (castRvalue K st c t p) = true ↔
      p = .reference ∨ p = .reference_internal ∨ c = true) := by
  cases p <;> cases c <;>
    simp [castImpl, castRvalue, isFatal, Store.alloc]

/-- C4: the map caster accepts only `reference` and `reference_internal`;
`copy`, `move` and `take_ownership` (like every other policy value) hit
the fatal `default:` and are never silently reinterpreted — a non-fatal
result exists exactly for the two reference policies. -/
theorem mapCast_policy_iff (K : TensorKind) (v : MapView) (c : Bool)
    (p : Policy) :
    isFatal (mapCastImpl K c v p) = false ↔
      p = .reference ∨ p = .reference_internal := by
  cases p <;> simp [mapCastImpl, isFatal]

/-- C1: the owning-tensor load succeeds iff the array's rank equals the
tensor type's Rank and `is_correct_shape` accepts its shape; either
failure is the recoverable `none` (the function's type has no fatal
outcome), and on success the owned tensor has the array's shape and holds
a freshly allocated private copy of the foreign buffer's elements — a
buffer distinct from the caller's, so writing through either buffer
leaves the other unchanged. -/
theorem tensorLoad_ok_iff (K : TensorKind) (st : Store) (a : ForeignArray)
    (c : Bool) (hlen : a.shape.length = a.ndim) (hbuf : a.buf < st.next) :
    ((tensorLoad K st a c).isSome = true ↔
      a.ndim = K.rank ∧ is_correct_shape K a.shape = true)
    ∧ ∀ t st', tensorLoad K st a c = some (t, st') →
        t.shape = a.shape
        ∧ t.buf ≠ a.buf
        ∧ st'.bufs t.buf = st.bufs a.buf
        ∧ st'.bufs a.buf = st.bufs a.buf
        ∧ ∀ vals, (st'.write a.buf vals).bufs t.buf = st'.bufs t.buf
            ∧ (st'.write t.buf vals).bufs a.buf = st'.bufs a.buf := by
  constructor
  · constructor
    · intro hs
      obtain ⟨⟨t, st'⟩, h⟩ := Option.isSome_iff_exists.mp hs
      obtain ⟨h1, h2, _⟩ := tensorLoad_some_parts K st a c t st' hlen h
      exact ⟨h1, h2⟩
    · intro ⟨h1, h2⟩
      exact tensorLoad_isSome_of K st a c hlen h1 h2
  · intro t st' h
    obtain ⟨h1, h2, hsh, hbufeq, hnext, hbufs⟩ :=
      tensorLoad_some_parts K st a c t st' hlen h
    have hne : t.buf ≠ a.buf := by rw [hbufeq]; omega
    refine ⟨hsh, hne, ?_, ?_, ?_⟩
    · rw [hbufs, hbufeq]; simp
    · rw [hbufs]
      have hne' : a.buf ≠ st.next := by omega
      simp [hne']
    · intro vals
      exact ⟨by simp [Store.write, hne], by simp [Store.write, hne.symm]⟩

/-- Witness for C1 at the concrete fixed-shape kind `K0`, store `st0` and
array `a0`: the hypotheses hold there and the load accepts `a0`, placing
the copy in the fresh buffer 1 ≠ 0. -/
theorem tensorLoad_ok_iff_w :
    a0.shape.length = a0.ndim ∧ a0.buf < st0.next
    ∧ ((tensorLoad K0 st0 a0 true).isSome = true ↔
        a0.ndim = K0.rank ∧ is_correct_shape K0 a0.shape = true)
    ∧ (⟨[2, 3], 1⟩ : Tensor).buf ≠ a0.buf := by
  have h := tensorLoad_ok_iff K0 st0 a0 true (by decide) (by decide)
  exact ⟨by decide, by decide, h.1,
    (h.2 ⟨[2, 3], 1⟩ (st0.alloc (st0.bufs a0.buf)).2 rfl).2.1⟩

/-- C2: the map load fails (recoverably, `none`) exactly when the layout
flag mismatches the kind's layout, or the dtype differs from the scalar's
dtype (no coercion), or the rank differs from Rank, or `is_correct_shape`
rejects the shape; when all four checks pass it yields a view with the
array's shape aliasing the array's buffer — the load threads no store, so
nothing is allocated and no data copied. -/
theorem mapLoad_strict_iff (K : TensorKind) (a : ForeignArray)
    (hlen : a.shape.length = a.ndim) :
    (mapLoad K a = none ↔
      a.layout ≠ K.layout ∨ a.dtype ≠ K.scalar ∨ a.ndim ≠ K.rank
        ∨ ¬ is_correct_shape K a.shape = true)
    ∧ ∀ v, mapLoad K a = some v → v.shape = a.shape ∧ v.buf = a.buf := by
  by_cases h3 : a.ndim = K.rank
  · have htake : a.shape.take K.rank = a.shape :=
      List.take_of_length_le (by rw [hlen, h3])
    by_cases h1 : a.layout = K.layout
    · by_cases h2 : a.dtype = K.scalar
      · by_cases h4 : is_correct_shape K a.shape = true
        · constructor
          · simp [mapLoad, h1, h2, h3, htake, h4]
          · intro v hv
            obtain ⟨hs, hb⟩ := mapLoad_some_parts K a v hv
            exact ⟨by rw [hs, htake], hb⟩
        · constructor
          · simp [mapLoad, h1, h2, h3, htake, h4]
          · intro v hv
            simp [mapLoad, h1, h2, h3, htake, h4] at hv
      · constructor
        · simp [mapLoad, h1, h2]
        · intro v hv
          simp [mapLoad, h1, h2] at hv
    · constructor
      · simp [mapLoad, h1]
      · intro v hv
        simp [mapLoad, h1] at hv
  · have hnone : mapLoad K a = none := by
      by_cases h1 : a.layout = K.layout
      · by_cases h2 : a.dtype = K.scalar
        · simp [mapLoad, h1, h2, h3]
        · simp [mapLoad, h1, h2]
      · simp [mapLoad, h1]
    constructor
    · simp [hnone, h3]
    · intro v hv
      rw [hnone] at hv
      cases hv

/-- Witness for C2 at `K0` and `a0`: the hypothesis holds, the failure
characterisation instantiates, and the accepted view `v0` aliases `a0`'s
buffer. -/
theorem mapLoad_strict_iff_w :
    a0.shape.length = a0.ndim
    ∧ (mapLoad K0 a0 = none ↔
        a0.layout ≠ K0.layout ∨ a0.dtype ≠ K0.scalar ∨ a0.ndim ≠ K0.rank
          ∨ ¬ is_correct_shape K0 a0.shape = true)
    ∧ v0.buf = a0.buf := by
  have h := mapLoad_strict_iff K0 a0 (by decide)
  exact ⟨by decide, h.1, (h.2 v0 rfl).2⟩

/-- C5: on every successful cast, the handle's writeable flag is true under
`copy`, `move` and `take_ownership`, and under `reference` /
`reference_internal` it mirrors the source's const-ness (false iff the
source is const) — for the owning caster, and likewise for the map
caster, which only succeeds under the two reference policies. -/
theorem cast_writeable_spec (K : TensorKind) (st : Store) (t : Tensor)
    (v : MapView) (c : Bool) (p : Policy) :
    (∀ o, castImpl K st c t p = .ok o →
      o.arr.writeable
        = if p = .reference ∨ p = .reference_internal then !c else true)
    ∧ ∀ r, mapCastImpl K c v p = .ok r → r.1.writeable = !c := by
  constructor
  · intro o h
    cases p <;> cases c <;>
      simp [castImpl, Store.alloc, mkArr] at h ⊢ <;>
      (try subst h) <;> rfl
  · intro r h
    cases p <;>
      simp [mapCastImpl, mkArr] at h ⊢ <;>
      (try subst h) <;> rfl

/-- Witness for C5: a reference cast from a const source at the concrete
instances yields a non-writeable handle. -/
theorem cast_writeable_spec_w :
    (⟨mkArr K0 [2, 3] false 0, .noneObj, st0, .referenced⟩
      : CastOut).arr.writeable = false := by
  have h := (cast_writeable_spec K0 st0 t0 v0 true .reference).1
    ⟨mkArr K0 [2, 3] false 0, .noneObj, st0, .referenced⟩ rfl
  simpa using h

/-- C6: round trip — for every foreign array accepted by the owning load,
casting the loaded tensor back with `copy` yields a handle with the
original's shape and element values, held in a buffer distinct from the
original's, with the original's contents untouched, and the two buffers
independent: writing through either never changes the other. -/
theorem roundTrip_copy_spec (K : TensorKind) (st : Store) (a : ForeignArray)
    (c : Bool) (t : Tensor) (st1 : Store)
    (hlen : a.shape.length = a.ndim) (hbuf : a.buf < st.next)
    (hload : tensorLoad K st a c = some (t, st1)) :
    ∀ o, castImpl K st1 false t .copy = .ok o →
      o.arr.shape = a.shape
      ∧ o.store.bufs o.arr.buf = st.bufs a.buf
      ∧ o.arr.buf ≠ a.buf
      ∧ o.store.bufs a.buf = st.bufs a.buf
      ∧ ∀ vals,
          (o.store.write a.buf vals).bufs o.arr.buf = o.store.bufs o.arr.buf
          ∧ (o.store.write o.arr.buf vals).bufs a.buf
            = o.store.bufs a.buf := by
  intro o ho
  obtain ⟨h1, h2, hsh, hbufeq, hnext, hbufs⟩ :=
    tensorLoad_some_parts K st a c t st1 hlen hload
  have hgs : get_shape K t.shape = a.shape := by
    rw [hsh]
    exact get_shape_of_correct K a.shape h2
  simp [castImpl, Store.alloc, mkArr] at ho
  subst ho
  have hne1 : a.buf ≠ st1.next := by omega
  have hne2 : a.buf ≠ st.next := by omega
  refine ⟨hgs, ?_, by simp; omega, ?_, ?_⟩
  · simp [hbufs, hbufeq]
  · simp [hne1, hbufs, hne2]
  · intro vals
    constructor
    · simp [Store.write, Ne.symm hne1]
    · simp [Store.write, hne1]

/-- Witness for C6: the round trip at `K0`, `st0`, `a0` — load into buffer
1, copy-cast into buffer 2 — reproduces shape and contents in a buffer
distinct from `a0`'s. -/
theorem roundTrip_copy_spec_w :
    a0.shape.length = a0.ndim ∧ a0.buf < st0.next
    ∧ (⟨mkArr K0 [2, 3] true 2, .empty,
        ((st0.alloc (st0.bufs 0)).2.alloc
          ((st0.alloc (st0.bufs 0)).2.bufs 1)).2, .copied⟩
        : CastOut).arr.shape = a0.shape
    ∧ (⟨mkArr K0 [2, 3] true 2, .empty,
        ((st0.alloc (st0.bufs 0)).2.alloc
          ((st0.alloc (st0.bufs 0)).2.bufs 1)).2, .copied⟩
        : CastOut).arr.buf ≠ a0.buf := by
  have h := roundTrip_copy_spec K0 st0 a0 true ⟨[2, 3], 1⟩
    (st0.alloc (st0.bufs 0)).2 (by decide) (by decide) rfl
    ⟨mkArr K0 [2, 3] true 2, .empty,
      ((st0.alloc (st0.bufs 0)).2.alloc
        ((st0.alloc (st0.bufs 0)).2.bufs 1)).2, .copied⟩ rfl
  exact ⟨by decide, by decide, h.1, h.2.2.1⟩

/-- C9: for an rvalue source, every requested policy other than the two
reference policies is ignored and replaced by `move`: the result is the
move branch — the tensor move-constructed into a fresh aligned heap
allocation owned by a lifetime capsule, the handle aliasing the stolen
buffer with the store untouched (so a requested `copy` of a temporary
allocates nothing and copies no data); and a const rvalue source fails
fatally under every policy. -/
theorem castRvalue_move_spec (K : TensorKind) (st : Store) (t : Tensor) :
    (∀ p : Policy, ¬(p = .reference ∨ p = .reference_internal) →
      castRvalue K st false t p
        = .ok ⟨mkArr K (get_shape K t.shape) true t.buf, .capsule, st,
               .moved⟩)
    ∧ ∀ p : Policy, isFatal (castRvalue K st true t p) = true := by
  constructor
  · intro p hp
    cases p <;> simp_all [castRvalue, castImpl]
  · intro p
    cases p <;> simp [castRvalue, castImpl, isFatal]

/-- Witness for C9: at the concrete instances, a requested `copy` of a
non-const temporary performs the move branch, and the same request on a
const temporary is fatal. -/
theorem castRvalue_move_spec_w :
    castRvalue K0 st0 false t0 .copy
      = .ok ⟨mkArr K0 (get_shape K0 t0.shape) true t0.buf, .capsule, st0,
             .moved⟩
    ∧ isFatal (castRvalue K0 st0 true t0 .copy) = true :=
  ⟨(castRvalue_move_spec K0 st0 t0).1 .copy (by decide),
   (castRvalue_move_spec K0 st0 t0).2 .copy⟩

/-- C10: the map loader never consults the writeable flag — arrays
differing only in writeability receive identical results (same
accept/reject decision and same view), and on acceptance the view holds
the array's buffer (its mutable data pointer) unconditionally, so a
read-only array passing the four checks is never rejected. -/
theorem mapLoad_writeable_independent (K : TensorKind) (a : ForeignArray)
    (w : Bool) :
    mapLoad K { a with writeable := w } = mapLoad K a
    ∧ ∀ v, mapLoad K a = some v → v.buf = a.buf := by
  constructor
  · rfl
  · intro v hv
    exact (mapLoad_some_parts K a v hv).2

/-- Witness for C10: a read-only copy of `a0` loads exactly like `a0`, and
the accepted view aliases `a0`'s buffer. -/
theorem mapLoad_writeable_independent_w :
    mapLoad K0 { a0 with writeable := false } = mapLoad K0 a0
    ∧ v0.buf = a0.buf :=
  ⟨(mapLoad_writeable_independent K0 a0 false).1,
   (mapLoad_writeable_independent K0 a0 false).2 v0 rfl⟩

end EigenTensor
